import Mathlib

/-!
# Verification of the `galactic` taggers module

A shallow embedding of `src/galactic/taggers.py`: a dataset annotation
pipeline whose operations (`tag_string`, `detect_language`,
`calc_perplexity`, `detect_pii`, `detect_seo_spam`, `count_tokens`) attach
derived metadata columns to a tabular dataset.

External pretrained models (the fasttext language identifier and spam
classifier, the ctranslate2 neural scorer, the kenlm statistical scorer,
the scrubadub entity scanner, and huggingface subword tokenizers) are
opaque capabilities in the Python code; here they are function parameters
of the corresponding operations.

Machine floats become `ℝ`; Python exceptions become `Except Err`.
-/

namespace Galactic

/-! ## Python string primitives -/

/-- The characters of the concatenation of two strings. -/
theorem strDataAppend (a b : String) : (a ++ b).data = a.data ++ b.data := by
  cases a; cases b; rfl

/-- Models Python `s.replace("\n", " ")`: a single-character pattern, so the
replacement is a character-wise map. -/
def replaceNewlines (s : String) : String :=
  ⟨s.data.map (fun c => if c == '\n' then ' ' else c)⟩

/-- Models Python `s.lower()` on ASCII text (`Char.toLower` only lowers
ASCII letters; the classifier preprocessing in the source is applied to
web text where that is the intended effect). -/
def pyLower (s : String) : String :=
  ⟨s.data.map Char.toLower⟩

/-- Decimal digit characters, used to model Python `str(int)`. -/
def digitChar : Nat → Char
  | 0 => '0'
  | 1 => '1'
  | 2 => '2'
  | 3 => '3'
  | 4 => '4'
  | 5 => '5'
  | 6 => '6'
  | 7 => '7'
  | 8 => '8'
  | _ => '9'

/-- Fuel-indexed decimal digits of a natural number, most significant
first.  The fuel is always instantiated with at least the number itself
plus one, which is plenty since the argument shrinks by a factor of ten
each step. -/
def natDigits : Nat → Nat → List Char
  | 0, _ => []
  | fuel + 1, n =>
    if n < 10 then [digitChar n]
    else natDigits fuel (n / 10) ++ [digitChar (n % 10)]

/-- Models Python `str` on a nonnegative integer. -/
def natRepr (n : Nat) : String := ⟨natDigits (n + 1) n⟩

/-- Models Python `str` on an integer (a leading `-` for negatives). -/
def intRepr : Int → String
  | .ofNat n => natRepr n
  | .negSucc n => "-" ++ natRepr (n + 1)

/-- One step of Python `repr` escaping for a string quoted with `quote`:
backslash, newline, carriage return, tab and the quote character itself
are escaped; other characters pass through.  (Further `\xNN` escapes for
unprintable characters are not modelled; no claim depends on them, and
they introduce no raw newline either.) -/
def pyEscapeChar (quote : Char) (c : Char) : List Char :=
  if c == '\\' then ['\\', '\\']
  else if c == '\n' then ['\\', 'n']
  else if c == '\r' then ['\\', 'r']
  else if c == '\t' then ['\\', 't']
  else if c == quote then ['\\', quote]
  else [c]

/-- Models Python `repr` on a string: single-quoted, unless the string
contains a single quote and no double quote, in which case double-quoted. -/
def pyReprStr (s : String) : String :=
  let q : Char := if s.data.contains '\'' && !(s.data.contains '"') then '"' else '\''
  ⟨[q] ++ s.data.flatMap (pyEscapeChar q) ++ [q]⟩

/-- `", ".join` of a list of strings, as Python prints list elements. -/
def joinComma : List String → String
  | [] => ""
  | [s] => s
  | s :: rest => s ++ ", " ++ joinComma rest

/-! ## Python `str.split` (fuel-indexed, structurally recursive) -/

/-- `listIsPre p s` : is `p` a prefix of `s`?  (Character lists.) -/
def listIsPre : List Char → List Char → Bool
  | [], _ => true
  | _ :: _, [] => false
  | a :: as, b :: bs => a == b && listIsPre as bs

/-- `listSub p s` : does `p` occur as a contiguous substring of `s`? -/
def listSub : List Char → List Char → Bool
  | p, [] => p.isEmpty
  | p, b :: rest => listIsPre p (b :: rest) || listSub p rest

/-- Case-sensitive substring containment on strings. -/
def containsSub (s pat : String) : Bool := listSub pat.data s.data

/-- Fuel-indexed worker for Python `s.split(sep)` with a nonempty
separator: scan left to right; at each occurrence of `sep` close the
accumulated piece and continue after the separator.  The fuel is always
instantiated with more than the length of the scanned list, which
suffices because each step consumes at least one character. -/
def splitGo (sep : List Char) : Nat → List Char → List Char → List (List Char)
  | _, [], acc => [acc.reverse]
  | 0, s, acc => [acc.reverse ++ s]
  | fuel + 1, c :: rest, acc =>
    if listIsPre sep (c :: rest) then
      acc.reverse :: splitGo sep fuel ((c :: rest).drop sep.length) []
    else
      splitGo sep fuel rest (c :: acc)

/-- Models Python `s.split(sep)` for a nonempty separator `sep` (the only
way the source uses it: `label.split("__label__")`). -/
def pySplit (s sep : String) : List String :=
  (splitGo sep.data (s.data.length + 1) s.data []).map (fun l => ⟨l⟩)

/-! ## Python values and stringification

Field values of a row.  Hugging-face datasets in the default (python)
format yield strings, integers, booleans, `None`, and (possibly nested)
lists of those; floats only arise in reserved output columns written by
the analyzers themselves, where they are real numbers produced by an
opaque model, so their Python text formatting is deliberately not
modelled (`pyRepr` maps them to a fixed placeholder; no analyzer in the
source ever re-reads or stringifies its own float outputs). -/

inductive Value where
  | str (s : String)
  | int (n : Int)
  | bool (b : Bool)
  | none
  | list (vs : List Value)
  | real (x : ℝ)

/-- Models Python `repr`. -/
def pyRepr : Value → String
  | .str s => pyReprStr s
  | .int n => intRepr n
  | .bool b => if b then "True" else "False"
  | .none => "None"
  | .real _ => "float"
  | .list vs => "[" ++ joinComma (vs.attach.map (fun v => pyRepr v.1)) ++ "]"
decreasing_by
  have := List.sizeOf_lt_of_mem v.2
  simp only [Value.list.sizeOf_spec]
  omega

/-- Models Python `str`: the identity on strings, `repr` otherwise
(`str` and `repr` agree on integers, booleans, `None` and lists). -/
def stringify : Value → String
  | .str s => s
  | .int n => intRepr n
  | .bool b => if b then "True" else "False"
  | .none => "None"
  | .real x => pyRepr (.real x)
  | .list vs => pyRepr (.list vs)

/-! ## No raw newline in the printed form of a non-string value

Python `repr` escapes control characters, so `str(v)` for a non-string
`v` never contains a raw newline.  This is what makes the language
identifier's two branches agree on the queried text (claim C6). -/

theorem digitChar_ne_nl (n : Nat) : digitChar n ≠ '\n' := by
  unfold digitChar
  split <;> decide

theorem nl_not_mem_natDigits : ∀ (fuel n : Nat), '\n' ∉ natDigits fuel n := by
  intro fuel
  induction fuel with
  | zero => intro n; simp [natDigits]
  | succ f ih =>
    intro n
    simp only [natDigits]
    split
    · simp [digitChar_ne_nl n]
      exact fun h => digitChar_ne_nl n h.symm
    · intro h
      rcases List.mem_append.mp h with h | h
      · exact ih _ h
      · exact digitChar_ne_nl _ (List.mem_singleton.mp h).symm

theorem nl_not_mem_natRepr (n : Nat) : '\n' ∉ (natRepr n).data :=
  nl_not_mem_natDigits (n + 1) n

theorem nl_not_mem_intRepr (n : Int) : '\n' ∉ (intRepr n).data := by
  cases n with
  | ofNat m => exact nl_not_mem_natRepr m
  | negSucc m =>
    intro h
    rw [intRepr, strDataAppend] at h
    rcases List.mem_append.mp h with h | h
    · simp at h
    · exact nl_not_mem_natRepr (m + 1) h

theorem nl_not_mem_pyEscapeChar (q c : Char) (hq : q ≠ '\n') :
    '\n' ∉ pyEscapeChar q c := by
  unfold pyEscapeChar
  split_ifs with h1 h2 h3 h4 h5
  · decide
  · decide
  · decide
  · decide
  · intro h
    rcases List.mem_cons.mp h with h | h
    · exact absurd h.symm (by decide)
    · exact hq ((List.mem_singleton.mp h).symm)
  · intro h
    have : c ≠ '\n' := by simpa using h2
    exact this ((List.mem_singleton.mp h).symm)

theorem nl_not_mem_pyReprStr (s : String) : '\n' ∉ (pyReprStr s).data := by
  unfold pyReprStr
  intro h
  have hq : (if s.data.contains '\'' && !(s.data.contains '"') then '"' else '\'') ≠ '\n' := by
    split <;> decide
  rcases List.mem_append.mp h with h | h
  · rcases List.mem_append.mp h with h | h
    · exact hq (List.mem_singleton.mp h).symm
    · rcases List.mem_flatMap.mp h with ⟨c, _, hc⟩
      exact nl_not_mem_pyEscapeChar _ c hq hc
  · exact hq (List.mem_singleton.mp h).symm

theorem nl_not_mem_joinComma :
    ∀ (parts : List String), (∀ p ∈ parts, '\n' ∉ p.data) →
      '\n' ∉ (joinComma parts).data
  | [], _ => by simp [joinComma]
  | [s], h => by simpa [joinComma] using h s (by simp)
  | s :: t :: rest, h => by
    have ih := nl_not_mem_joinComma (t :: rest)
      (fun p hp => h p (List.mem_cons_of_mem _ hp))
    intro hmem
    rw [show joinComma (s :: t :: rest) = s ++ ", " ++ joinComma (t :: rest) from rfl,
      strDataAppend, strDataAppend] at hmem
    rcases List.mem_append.mp hmem with hmem | hmem
    · rcases List.mem_append.mp hmem with hmem | hmem
      · exact h s (by simp) hmem
      · simp at hmem
    · exact ih hmem

theorem nl_not_mem_pyRepr (v : Value) : '\n' ∉ (pyRepr v).data := by
  induction v using pyRepr.induct with
  | case1 s => simpa [pyRepr] using nl_not_mem_pyReprStr s
  | case2 n => simpa [pyRepr] using nl_not_mem_intRepr n
  | case3 => simp only [pyRepr]; split <;> decide
  | case4 => simp only [pyRepr]; split <;> decide
  | case5 => simp only [pyRepr]; decide
  | case6 => simp only [pyRepr]; decide
  | case7 vs ih =>
    simp only [pyRepr]
    intro h
    rw [strDataAppend, strDataAppend] at h
    rcases List.mem_append.mp h with h | h
    · rcases List.mem_append.mp h with h | h
      · exact absurd h (by decide)
      · refine nl_not_mem_joinComma _ ?_ h
        intro p hp
        rcases List.mem_map.mp hp with ⟨⟨w, hw⟩, _, rfl⟩
        exact ih ⟨w, hw⟩
    · exact absurd h (by decide)

theorem nl_not_mem_stringify {v : Value} (h : ∀ s, v ≠ .str s) :
    '\n' ∉ (stringify v).data := by
  cases v with
  | str s => exact absurd rfl (h s)
  | int n => exact nl_not_mem_intRepr n
  | bool b => cases b <;> simp [stringify]
  | none => simp [stringify]
  | real x => simpa [stringify] using nl_not_mem_pyRepr (.real x)
  | list vs => simpa [stringify] using nl_not_mem_pyRepr (.list vs)

theorem replaceNewlines_eq_self {s : String} (h : '\n' ∉ s.data) :
    replaceNewlines s = s := by
  cases s with
  | mk data =>
    simp only [replaceNewlines]
    congr 1
    induction data with
    | nil => rfl
    | cons c rest ih =>
      simp only [List.map_cons]
      rw [if_neg (by simpa using fun hc => h (by simp [hc]))]
      rw [ih (fun hm => h (List.mem_cons_of_mem _ hm))]

/-- The text the language identifier queries for a non-string value is
already newline-free, so the (skipped) newline replacement is a no-op. -/
theorem replaceNewlines_stringify {v : Value} (h : ∀ s, v ≠ .str s) :
    replaceNewlines (stringify v) = stringify v :=
  replaceNewlines_eq_self (nl_not_mem_stringify h)

/-! ## Rows, datasets, errors -/

/-- A row: a finite mapping from field name to value.  `List.lookup`
finds the leftmost binding, so prepending new columns overwrites. -/
abbrev Row := List (String × Value)

/-- A dataset: named typed columns (`features`, mapping column name to
the dtype string hugging-face reports, e.g. `"string"`) over a list of
rows. -/
structure Dataset where
  features : List (String × String)
  rows : List Row

/-- The Python exceptions the module can raise, by kind.
`missingField`/`typeMismatch`/`configError` are the explicit
`ValueError`s of the source's pre-row validation; `keyError` is a
`sample[field]` lookup failure inside a row function; `indexError` is a
`[1]`/`[0]` subscript on a too-short list; `attrError` is a string method
applied to a non-string value. -/
inductive Err where
  | missingField (field : String)
  | typeMismatch (field : String)
  | configError
  | keyError (field : String)
  | indexError
  | attrError
deriving DecidableEq

/-- Models `sample[field]` on a row dict: the value, or a `KeyError`. -/
def rowGet (row : Row) (f : String) : Except Err Value :=
  match List.lookup f row with
  | some v => .ok v
  | Option.none => .error (.keyError f)

/-- The value of a field known to be present (default `None` otherwise);
used to state per-row results of operations whose preconditions
guarantee presence. -/
def getValD (r : Row) (f : String) : Value :=
  (List.lookup f r).getD Value.none

/-- The string value of a field known to hold a string (default `""`
otherwise). -/
def getStrD (r : Row) (f : String) : String :=
  match List.lookup f r with
  | some (.str s) => s
  | _ => ""

/-- Merging the columns a row function returns back into the row, as the
dataset engine's `map` does: new bindings shadow old ones (lookup is
leftmost-first). -/
def mergeRow (r : Row) (new : List (String × Value)) : Row := new ++ r

/-- The schema after an operation adds columns `new`: replaced columns
drop their old entry. -/
def addFeatures (fs new : List (String × String)) : List (String × String) :=
  fs.filter (fun p => (List.lookup p.1 new).isNone) ++ new

/-- Models `dataset.map(fn)` for a per-row function that may raise: rows
in order, first raise aborts the whole map (the source's dataset
reference is then never reassigned, so a raise leaves it unchanged). -/
def mapRows (f : Row → Except Err (List (String × Value))) :
    List Row → Except Err (List Row)
  | [] => .ok []
  | r :: rs => do
    let out ← f r
    let rest ← mapRows f rs
    .ok (mergeRow r out :: rest)

/-! ## `tag_string` (the literal Matcher) -/

/-- Models `re.compile("|".join([re.escape(val) for val in values])).search(s)`
being a match: escaping makes every value a literal, so the alternation
matches iff some value occurs as a substring — except that the
alternation of zero literals compiles to the empty pattern, which
matches (at offset 0) in every string. -/
def reSearch (values : List String) (s : String) : Bool :=
  values.isEmpty || values.any (fun v => containsSub s v)

/-- The row function of `tag_string`: fields in order, a field missing
from the row is skipped, the first field whose stringified value matches
short-circuits to `True`; if no field matches the tag is `False`.
(The source's `isinstance` split searches `sample[field]` when it is a
string and `str(sample[field])` otherwise: both are `stringify`.) -/
def tagRowBool (values : List String) : List String → Row → Bool
  | [], _ => false
  | f :: rest, r =>
    match List.lookup f r with
    | some v =>
      if reSearch values (stringify v) then true
      else tagRowBool values rest r
    | Option.none => tagRowBool values rest r

/-- Models `tag_string(self, fields, values, tag)`.  The overwrite check
on an existing `__tag__` column only logs a warning, so it does not
appear in the result.  This operation never raises. -/
def tag_string (ds : Dataset) (fields values : List String) (tag : String) :
    Dataset :=
  ⟨addFeatures ds.features [("__tag__" ++ tag, "bool")],
   ds.rows.map (fun r =>
     mergeRow r [("__tag__" ++ tag, .bool (tagRowBool values fields r))])⟩

/-! ## `detect_language`

The fasttext model is the opaque capability
`predict : String → List String × List ℝ`: the ranked label strings
(each of the form `"__label__" ++ code`) and their confidences, as
`model.predict` returns them. -/

/-- The text the row function hands to the model: the source replaces
newlines by spaces in its string branch and calls `str(...)` without the
replacement in its non-string branch. -/
def langQuery : Value → String
  | .str s => replaceNewlines s
  | v => stringify v

/-- The row function of `detect_language`: query the model, take the top
label (`[0][0]`), strip the `"__label__"` prefix via
`.split("__label__")[1]`, discard the confidences. -/
def detectLangRow (predict : String → List String × List ℝ) (field : String)
    (row : Row) : Except Err (List (String × Value)) := do
  let v ← rowGet row field
  match (predict (langQuery v)).1 with
  | [] => .error .indexError
  | top :: _ =>
    match (pySplit top "__label__").get? 1 with
    | some code => .ok [("__language", .str code)]
    | Option.none => .error .indexError

/-- Models `detect_language(self, field)`: a field absent from the
schema is a `ValueError` raised before the model is even loaded and
before any row is mapped. -/
def detect_language (predict : String → List String × List ℝ)
    (ds : Dataset) (field : String) : Except Err Dataset :=
  if (List.lookup field ds.features).isNone then
    .error (.missingField field)
  else
    (mapRows (detectLangRow predict field) ds.rows).map (fun rows =>
      ⟨addFeatures ds.features [("__language", "string")], rows⟩)

/-! ## `calc_perplexity`

Opaque capabilities: `tokenize` is the composite
`tokenizer(...).input_ids` / `convert_ids_to_tokens` step of the pythia
branch, `score` is `model.score_batch([tokens])[0].log_probs`, and
`kenlmPpl dsName lang text` is
`KenlmModel.from_pretrained(dsName, lang).get_perplexity(text)`. -/

/-- `Modelled from the spec:` the byte-length helper `byte_len` lives in
the repository's utilities module, which is not part of the sources
given; the spec describes it as the byte length of the encoded text
("5 characters, 6 encoded bytes" for `"héllo"`), i.e. the UTF-8 byte
size. -/
def byte_len (s : String) : Nat := s.utf8ByteSize

/-- The row function of the pythia (neural) branch:
`exp(-sum(log_probs) / byte_len(sample[field]))` — the denominator is
the byte length of the original untokenized text, not the token count. -/
noncomputable def pythiaRow (tokenize : String → List String) (score : List String → List ℝ)
    (field : String) (row : Row) : Except Err (List (String × Value)) := do
  let v ← rowGet row field
  match v with
  | .str s =>
    .ok [("__perplexity",
      .real (Real.exp (-(score (tokenize s)).sum / (byte_len s : ℝ))))]
  | _ => .error .attrError

/-- The row function of the kenlm (statistical) branch: the model is
already normalized per byte, the score is passed through. -/
def kenlmRow (kenlmPpl : String → String → String → ℝ)
    (dsName lang field : String) (row : Row) :
    Except Err (List (String × Value)) := do
  let v ← rowGet row field
  match v with
  | .str s => .ok [("__perplexity", .real (kenlmPpl dsName lang s))]
  | _ => .error .attrError

/-- Models `calc_perplexity(self, field, model, language, dataset)`:
field existence and string dtype are checked first; then the backend
string is dispatched — `"pythia"` ignores `language`/`dsName`,
`"kenlm"` requires both to be present, anything else is unsupported. -/
noncomputable def calc_perplexity (tokenize : String → List String)
    (score : List String → List ℝ) (kenlmPpl : String → String → String → ℝ)
    (ds : Dataset) (field model : String) (language dsName : Option String) :
    Except Err Dataset :=
  match List.lookup field ds.features with
  | Option.none => .error (.missingField field)
  | some dt =>
    if dt != "string" then .error (.typeMismatch field)
    else if model == "pythia" then
      (mapRows (pythiaRow tokenize score field) ds.rows).map (fun rows =>
        ⟨addFeatures ds.features [("__perplexity", "float")], rows⟩)
    else if model == "kenlm" then
      match language, dsName with
      | some lang, some dn =>
        (mapRows (kenlmRow kenlmPpl dn lang field) ds.rows).map (fun rows =>
          ⟨addFeatures ds.features [("__perplexity", "float")], rows⟩)
      | _, _ => .error .configError
    else .error .configError

/-! ## `detect_pii`

The scrubadub scanner is the opaque capability
`scan : String → List String`: the `detector_name` of each filth item
found in the text, in order. -/

/-- All findings of a row: per listed field, in order, a field absent
from the row contributes nothing, a present field is stringified and
scanned. -/
def piiRowFilth (scan : String → List String) : List String → Row → List String
  | [], _ => []
  | f :: rest, r =>
    (match List.lookup f r with
     | some v => scan (stringify v)
     | Option.none => []) ++ piiRowFilth scan rest r

/-- The columns `detect_pii` writes for one row: one flag per tracked
category (`email`, `phone`, `credential`) — a finding of that category
exists — plus `__pii__any` — any finding at all exists. -/
def piiRowOut (scan : String → List String) (fields : List String) (r : Row) :
    List (String × Value) :=
  [("__pii__email", .bool ((piiRowFilth scan fields r).contains "email")),
   ("__pii__phone", .bool ((piiRowFilth scan fields r).contains "phone")),
   ("__pii__credential", .bool ((piiRowFilth scan fields r).contains "credential")),
   ("__pii__any", .bool (!(piiRowFilth scan fields r).isEmpty))]

/-- Models `detect_pii(self, fields)`: no pre-check of any kind; the row
function tolerates missing fields, so the operation never raises. -/
def detect_pii (scan : String → List String) (ds : Dataset)
    (fields : List String) : Dataset :=
  ⟨addFeatures ds.features
    [("__pii__email", "bool"), ("__pii__phone", "bool"),
     ("__pii__credential", "bool"), ("__pii__any", "bool")],
   ds.rows.map (fun r => mergeRow r (piiRowOut scan fields r))⟩

/-! ## `detect_seo_spam`

The fasttext spam classifier is the opaque capability
`classify : String → String × ℝ`: the top predicted label (of the form
`"__label__" ++ code`, i.e. `result[0][0]`) and its probability
(`result[1][0]`). -/

/-- The row function of `detect_seo_spam`: preprocess
(`.replace("\n", " ").lower()` — a string method, so a non-string value
raises), classify, strip the label prefix via `.split("__label__")[1]`;
label `"discard"` keeps the returned probability as the probability of
spam, any other label converts it via `1 - prob`. -/
def seoSpamRow (classify : String → String × ℝ) (field : String)
    (row : Row) : Except Err (List (String × Value)) := do
  let v ← rowGet row field
  match v with
  | .str s =>
    let pre := pyLower (replaceNewlines s)
    let lbl := (classify pre).1
    let prob := (classify pre).2
    match (pySplit lbl "__label__").get? 1 with
    | some label =>
      if label == "discard" then
        .ok [("__seo_spam__" ++ field, .bool true),
             ("__seo_spam_prob__" ++ field, .real prob)]
      else
        .ok [("__seo_spam__" ++ field, .bool false),
             ("__seo_spam_prob__" ++ field, .real (1 - prob))]
    | Option.none => .error .indexError
  | _ => .error .attrError

/-- Models `detect_seo_spam(self, field)`: field existence and string
dtype are checked before any row is mapped. -/
def detect_seo_spam (classify : String → String × ℝ) (ds : Dataset)
    (field : String) : Except Err Dataset :=
  match List.lookup field ds.features with
  | Option.none => .error (.missingField field)
  | some dt =>
    if dt != "string" then .error (.typeMismatch field)
    else
      (mapRows (seoSpamRow classify field) ds.rows).map (fun rows =>
        ⟨addFeatures ds.features
          [("__seo_spam__" ++ field, "bool"),
           ("__seo_spam_prob__" ++ field, "float")], rows⟩)

/-! ## `count_tokens`

`loadTok name` is the opaque subword tokenizer
`AutoTokenizer.from_pretrained(name)`, as the token-count function
`text ↦ len(tokenizer(text).input_ids)`. -/

/-- The row function of `count_tokens`: the source's dict comprehension
`{prefix+field: count_fn(x[field]) for field in fields}` evaluated left
to right; the first field absent from the row raises `KeyError`. -/
def countRow (countFn : Value → Nat) (pre : String) :
    List String → Row → Except Err (List (String × Value))
  | [], _ => .ok []
  | f :: rest, row => do
    let v ← rowGet row f
    let tail ← countRow countFn pre rest row
    .ok ((pre ++ f, Value.int (countFn v)) :: tail)

/-- Models `count_tokens(self, fields, tokenizer)`.  There is no
pre-row validation of any kind: with no tokenizer the count is
`byte_len(str(x))` under prefix `__byte_count__`, with a tokenizer it is
the subword token count under prefix `__token_count__`. -/
def count_tokens (loadTok : String → String → Nat) (ds : Dataset)
    (fields : List String) (tokName : Option String) : Except Err Dataset :=
  let countFn : Value → Nat :=
    match tokName with
    | Option.none => fun v => byte_len (stringify v)
    | some t => fun v => loadTok t (stringify v)
  let colPre : String :=
    match tokName with
    | Option.none => "__byte_count__"
    | some _ => "__token_count__"
  (mapRows (countRow countFn colPre fields) ds.rows).map (fun rows =>
    ⟨addFeatures ds.features (fields.map (fun f => (colPre ++ f, "int64"))),
     rows⟩)

/-! ## Helper lemmas -/

/-- A fallible row map on which every row succeeds is the plain map. -/
theorem mapRows_ok (f : Row → Except Err (List (String × Value)))
    (g : Row → List (String × Value)) :
    ∀ (rows : List Row), (∀ r ∈ rows, f r = .ok (g r)) →
      mapRows f rows = .ok (rows.map fun r => mergeRow r (g r))
  | [], _ => rfl
  | r :: rs, h => by
    have hr : f r = .ok (g r) := h r (by simp)
    have ih := mapRows_ok f g rs (fun x hx => h x (List.mem_cons_of_mem _ hx))
    simp only [mapRows, hr, ih]
    rfl

/-- Boolean prefix test agrees with `List.IsPrefix`. -/
theorem listIsPre_iff : ∀ (p s : List Char), listIsPre p s = true ↔ p <+: s
  | [], s => by simp [listIsPre]
  | a :: as, [] => by simp [listIsPre]
  | a :: as, b :: bs => by
    simp [listIsPre, List.cons_prefix_cons, listIsPre_iff as bs, and_comm]

/-- Boolean substring test agrees with `List.IsInfix`. -/
theorem listSub_iff (p : List Char) : ∀ (s : List Char),
    listSub p s = true ↔ p <:+: s
  | [] => by simp [listSub, List.isEmpty_iff]
  | b :: bs => by
    simp [listSub, listIsPre_iff, listSub_iff p bs, List.infix_cons_iff]

/-- For a nonempty list of literals, the compiled alternation matches a
string iff some literal occurs in it as a substring. -/
theorem reSearch_iff (values : List String) (s : String) (h : values ≠ []) :
    reSearch values s = true ↔ ∃ val ∈ values, val.data <:+: s.data := by
  unfold reSearch
  simp [List.isEmpty_iff, h, containsSub, listSub_iff]

/-- The alternation of zero literals matches every string. -/
theorem reSearch_nil (s : String) : reSearch [] s = true := rfl

/-- The matcher's row boolean, for a nonempty list of literals: true iff
some listed field is present in the row and its stringified value
contains some literal as a substring. -/
theorem tagRowBool_iff (values : List String) (r : Row) (hne : values ≠ []) :
    ∀ (fields : List String),
      tagRowBool values fields r = true ↔
        ∃ f ∈ fields, ∃ v, List.lookup f r = some v ∧
          ∃ val ∈ values, val.data <:+: (stringify v).data
  | [] => by simp [tagRowBool]
  | f :: rest => by
    have ih := tagRowBool_iff values r hne rest
    simp only [tagRowBool]
    cases hl : List.lookup f r with
    | none =>
      rw [ih]
      constructor
      · rintro ⟨g, hg, hrest⟩
        exact ⟨g, List.mem_cons_of_mem _ hg, hrest⟩
      · rintro ⟨g, hg, v, hv, hval⟩
        rcases List.mem_cons.mp hg with rfl | hg
        · rw [hl] at hv; cases hv
        · exact ⟨g, hg, v, hv, hval⟩
    | some v =>
      by_cases hs : reSearch values (stringify v) = true
      · simp only [hs, if_true, true_iff]
        exact ⟨f, by simp, v, hl, (reSearch_iff values _ hne).mp hs⟩
      · simp only [Bool.not_eq_true] at hs
        simp only [hs, Bool.false_eq_true, if_false]
        rw [ih]
        constructor
        · rintro ⟨g, hg, hrest⟩
          exact ⟨g, List.mem_cons_of_mem _ hg, hrest⟩
        · rintro ⟨g, hg, w, hw, hval⟩
          rcases List.mem_cons.mp hg with rfl | hg
          · rw [hl] at hw
            cases hw
            exact absurd ((reSearch_iff values (stringify v) hne).mpr hval)
              (by simp [hs])
          · exact ⟨g, hg, w, hw, hval⟩

/-- Fields absent from a row do not influence the matcher's row boolean:
restricting to the present fields gives the same value. -/
theorem tagRowBool_filter (values : List String) (r : Row) :
    ∀ (fields : List String),
      tagRowBool values (fields.filter fun f => (List.lookup f r).isSome) r
        = tagRowBool values fields r
  | [] => rfl
  | f :: rest => by
    have ih := tagRowBool_filter values r rest
    cases hl : List.lookup f r with
    | none => simp [List.filter_cons, hl, tagRowBool, ih]
    | some v => simp [List.filter_cons, hl, tagRowBool, ih]

/-- A finding is in a row's collected filth iff some listed field is
present in the row and scanning its stringified value yields it. -/
theorem mem_piiRowFilth (scan : String → List String) (x : String) (r : Row) :
    ∀ (fields : List String),
      x ∈ piiRowFilth scan fields r ↔
        ∃ f ∈ fields, ∃ v, List.lookup f r = some v ∧ x ∈ scan (stringify v)
  | [] => by simp [piiRowFilth]
  | f :: rest => by
    have ih := mem_piiRowFilth scan x r rest
    simp only [piiRowFilth, List.mem_append, ih]
    cases hl : List.lookup f r with
    | none =>
      constructor
      · rintro (h | ⟨g, hg, hrest⟩)
        · simp at h
        · exact ⟨g, List.mem_cons_of_mem _ hg, hrest⟩
      · rintro ⟨g, hg, v, hv, hx⟩
        rcases List.mem_cons.mp hg with rfl | hg
        · rw [hl] at hv; cases hv
        · exact Or.inr ⟨g, hg, v, hv, hx⟩
    | some v =>
      constructor
      · rintro (h | ⟨g, hg, hrest⟩)
        · exact ⟨f, by simp, v, hl, h⟩
        · exact ⟨g, List.mem_cons_of_mem _ hg, hrest⟩
      · rintro ⟨g, hg, w, hw, hx⟩
        rcases List.mem_cons.mp hg with rfl | hg
        · rw [hl] at hw; cases hw; exact Or.inl hx
        · exact Or.inr ⟨g, hg, w, hw, hx⟩

/-- With no literal values the row boolean only asks whether some listed
field is present in the row. -/
theorem tagRowBool_nil_values (r : Row) : ∀ (fields : List String),
    tagRowBool [] fields r = fields.any (fun f => (List.lookup f r).isSome)
  | [] => rfl
  | f :: rest => by
    have ih := tagRowBool_nil_values r rest
    cases hl : List.lookup f r with
    | none => simp [tagRowBool, hl, ih]
    | some v => simp [tagRowBool, hl, reSearch]

/-! ## Claims -/

/-- **C10.** Calling `tag_string` with an empty list of values sets
`__tag__<tag>` to true for every row in which at least one listed field
is present, and to false only for rows containing none of the listed
fields: `"|".join` of zero escaped literals is the empty pattern, which
`re.search` matches in every string. -/
theorem c10_empty_values_matches_presence (ds : Dataset) (fields : List String)
    (tag : String) :
    (tag_string ds fields [] tag).rows = ds.rows.map (fun r =>
      mergeRow r [("__tag__" ++ tag,
        Value.bool (fields.any (fun f => (List.lookup f r).isSome)))]) := by
  apply List.map_congr_left
  intro r _
  rw [tagRowBool_nil_values]

/-- **C7 (amended).** For a **nonempty** list of literal values, a row's
`__tag__<tag>` is true iff some listed field present in the row has a
stringified value containing one of the literals as a case-sensitive
substring; fields are tried in order with the first match
short-circuiting (`tagRowBool`), which cannot change the boolean
outcome.  The claim as stated, without the nonemptiness proviso, fails:
the alternation of zero literals matches everything (see
`c7_empty_values_counterexample` and C10). -/
theorem c7_literal_substring_tagging (ds : Dataset) (fields values : List String)
    (tag : String) (hne : values ≠ []) :
    (tag_string ds fields values tag).rows = ds.rows.map (fun r =>
      mergeRow r [("__tag__" ++ tag, Value.bool (tagRowBool values fields r))]) ∧
    ∀ r : Row, tagRowBool values fields r = true ↔
      ∃ f ∈ fields, ∃ v, List.lookup f r = some v ∧
        ∃ val ∈ values, val.data <:+: (stringify v).data :=
  ⟨rfl, fun r => tagRowBool_iff values r hne fields⟩

/-- **C7, the claim as frozen is false at an empty values list:** on a
row whose field `"text"` holds `"abc"`, `tag_string` with `values = []`
writes the tag `true`, yet no literal value is contained in the
stringified field value (there are no literal values at all). -/
theorem c7_empty_values_counterexample :
    (tag_string ⟨[("text", "string")], [[("text", Value.str "abc")]]⟩
        ["text"] [] "junk").rows
      = [[("__tag__junk", Value.bool true), ("text", Value.str "abc")]] ∧
    ¬ ∃ val ∈ ([] : List String), val.data <:+: (stringify (Value.str "abc")).data :=
  ⟨rfl, by simp⟩

/-- **C7 witness:** `values=["scam"]`, `fields=["text"]`: the row
`"This is a scam"` is tagged true (via the amended theorem's
characterization), the row `"This is a SCAM"` false — literal matching
is case-sensitive. -/
theorem c7_literal_substring_tagging_witness :
    tagRowBool ["scam"] ["text"] [("text", Value.str "This is a scam")] = true ∧
    tagRowBool ["scam"] ["text"] [("text", Value.str "This is a SCAM")] = false :=
  ⟨((c7_literal_substring_tagging ⟨[("text", "string")], []⟩ ["text"] ["scam"]
      "junk" (by decide)).2 [("text", Value.str "This is a scam")]).mpr
    ⟨"text", by simp, Value.str "This is a scam", rfl, "scam", by simp, by decide⟩,
   by decide⟩

/-- **C5.** Invoking the Language Identifier on a field absent from the
dataset schema raises (a `ValueError`, before the model is loaded and
before any row is mapped, so the dataset is not mutated), whereas
`tag_string` with the same missing field in its field list does not
raise — it is total — and each row's tag is computed from the fields
present in that row alone (filtering the field list down to the present
fields does not change any row's boolean). -/
theorem c5_missing_field_asymmetry (predict : String → List String × List ℝ)
    (ds : Dataset) (field : String)
    (hf : List.lookup field ds.features = Option.none)
    (fields values : List String) (tag : String) :
    detect_language predict ds field = .error (.missingField field) ∧
    (tag_string ds fields values tag).rows = ds.rows.map (fun r =>
      mergeRow r [("__tag__" ++ tag,
        Value.bool (tagRowBool values
          (fields.filter fun g => (List.lookup g r).isSome) r))]) := by
  constructor
  · unfold detect_language
    rw [hf]
    rfl
  · apply List.map_congr_left
    intro r _
    rw [tagRowBool_filter]

/-- **C5 witness:** a dataset whose schema has only `"text"`:
`detect_language` on `"missing"` errors before mutation, while
`tag_string` over `["missing", "text"]` computes from the present field. -/
theorem c5_missing_field_asymmetry_witness :
    detect_language (fun _ => ([], []))
        ⟨[("text", "string")], [[("text", Value.str "hello world")]]⟩ "missing"
      = .error (.missingField "missing") ∧
    (tag_string ⟨[("text", "string")], [[("text", Value.str "hello world")]]⟩
        ["missing", "text"] ["hello"] "greet").rows
      = [[("text", Value.str "hello world")]].map (fun r =>
        mergeRow r [("__tag__greet",
          Value.bool (tagRowBool ["hello"]
            (["missing", "text"].filter fun g => (List.lookup g r).isSome) r))]) :=
  c5_missing_field_asymmetry (fun _ => ([], []))
    ⟨[("text", "string")], [[("text", Value.str "hello world")]]⟩ "missing"
    rfl ["missing", "text"] ["hello"] "greet"

/-- **C8.** For every row, each of `__pii__email`, `__pii__phone`,
`__pii__credential` is true iff at least one finding with that
`detector_name` exists across all scanned present fields of the row, and
`__pii__any` is true iff at least one finding of any category exists; in
particular a row whose only finding is of a category outside the tracked
set makes all three category flags false and `__pii__any` true. -/
theorem c8_pii_category_flags (scan : String → List String) (ds : Dataset)
    (fields : List String) :
    (detect_pii scan ds fields).rows
      = ds.rows.map (fun r => mergeRow r (piiRowOut scan fields r)) ∧
    ∀ r : Row,
      (((piiRowFilth scan fields r).contains "email") = true ↔
        ∃ f ∈ fields, ∃ v, List.lookup f r = some v ∧
          "email" ∈ scan (stringify v)) ∧
      (((piiRowFilth scan fields r).contains "phone") = true ↔
        ∃ f ∈ fields, ∃ v, List.lookup f r = some v ∧
          "phone" ∈ scan (stringify v)) ∧
      (((piiRowFilth scan fields r).contains "credential") = true ↔
        ∃ f ∈ fields, ∃ v, List.lookup f r = some v ∧
          "credential" ∈ scan (stringify v)) ∧
      ((!(piiRowFilth scan fields r).isEmpty) = true ↔
        ∃ f ∈ fields, ∃ v, List.lookup f r = some v ∧
          scan (stringify v) ≠ []) := by
  refine ⟨rfl, fun r => ⟨?_, ?_, ?_, ?_⟩⟩
  · rw [List.elem_iff]
    exact mem_piiRowFilth scan "email" r fields
  · rw [List.elem_iff]
    exact mem_piiRowFilth scan "phone" r fields
  · rw [List.elem_iff]
    exact mem_piiRowFilth scan "credential" r fields
  · constructor
    · intro h
      rcases List.isEmpty_eq_false_iff_exists_mem.mp (by simpa using h)
        with ⟨x, hx⟩
      rcases (mem_piiRowFilth scan x r fields).mp hx with ⟨f, hf, v, hv, hxs⟩
      exact ⟨f, hf, v, hv, fun hnil => by simp [hnil] at hxs⟩
    · rintro ⟨f, hf, v, hv, hs⟩
      rcases List.isEmpty_eq_false_iff_exists_mem.mp
        (by simpa using hs) with ⟨x, hx⟩
      have : x ∈ piiRowFilth scan fields r :=
        (mem_piiRowFilth scan x r fields).mpr ⟨f, hf, v, hv, hx⟩
      simpa using List.isEmpty_eq_false_iff_exists_mem.mpr ⟨x, this⟩

/-- `count_tokens` with no tokenizer, unfolded. -/
theorem count_tokens_none_eq (loadTok : String → String → Nat) (ds : Dataset)
    (fields : List String) :
    count_tokens loadTok ds fields Option.none
      = (mapRows (countRow (fun v => byte_len (stringify v)) "__byte_count__"
          fields) ds.rows).map (fun rows =>
            ⟨addFeatures ds.features
              (fields.map (fun f => ("__byte_count__" ++ f, "int64"))),
             rows⟩) := rfl

/-- `count_tokens` with a tokenizer, unfolded. -/
theorem count_tokens_some_eq (loadTok : String → String → Nat) (ds : Dataset)
    (fields : List String) (t : String) :
    count_tokens loadTok ds fields (some t)
      = (mapRows (countRow (fun v => loadTok t (stringify v)) "__token_count__"
          fields) ds.rows).map (fun rows =>
            ⟨addFeatures ds.features
              (fields.map (fun f => ("__token_count__" ++ f, "int64"))),
             rows⟩) := rfl

/-- When every listed field is present in the row, the counter's row
function succeeds, producing one count per field in field order. -/
theorem countRow_ok (countFn : Value → Nat) (pre : String) :
    ∀ (fields : List String) (r : Row),
      (∀ f ∈ fields, (List.lookup f r).isSome) →
      countRow countFn pre fields r
        = .ok (fields.map fun f => (pre ++ f, Value.int (countFn (getValD r f))))
  | [], _, _ => rfl
  | f :: rest, r, h => by
    rcases Option.isSome_iff_exists.mp (h f (by simp)) with ⟨v, hv⟩
    have ih := countRow_ok countFn pre rest r
      (fun g hg => h g (List.mem_cons_of_mem _ hg))
    simp only [countRow, rowGet, hv, ih, List.map_cons]
    simp [getValD, hv]
    rfl

/-- When some listed field is absent from the row, the counter's row
function raises `KeyError` on (the first) such field. -/
theorem countRow_first_missing (countFn : Value → Nat) (pre : String) :
    ∀ (fields : List String) (r : Row),
      (∃ f ∈ fields, List.lookup f r = Option.none) →
      ∃ f ∈ fields, List.lookup f r = Option.none ∧
        countRow countFn pre fields r = .error (.keyError f)
  | [], _, h => absurd h (by simp)
  | f :: rest, r, h => by
    cases hl : List.lookup f r with
    | none =>
      refine ⟨f, by simp, hl, ?_⟩
      simp only [countRow, rowGet, hl]
      rfl
    | some v =>
      have habs : ∃ g ∈ rest, List.lookup g r = Option.none := by
        rcases h with ⟨g, hg, hgl⟩
        rcases List.mem_cons.mp hg with rfl | hg
        · rw [hl] at hgl; cases hgl
        · exact ⟨g, hg, hgl⟩
      rcases countRow_first_missing countFn pre rest r habs with ⟨g, hg, hgl, herr⟩
      refine ⟨g, List.mem_cons_of_mem _ hg, hgl, ?_⟩
      simp only [countRow, rowGet, hl, herr]
      rfl

/-- A row function failing on the first row fails the whole map. -/
theorem mapRows_error_head (f : Row → Except Err (List (String × Value)))
    (r : Row) (rs : List Row) (e : Err) (h : f r = .error e) :
    mapRows f (r :: rs) = .error e := by
  simp only [mapRows, h]
  rfl

/-- **C9.** With no tokenizer, the counter writes, for every row and
every listed field, `__byte_count__<field>` = the UTF-8 byte length of
the stringified field value (`byte_len(str(x[field]))`), not its
character count. -/
theorem c9_byte_count_is_utf8_length (loadTok : String → String → Nat)
    (ds : Dataset) (fields : List String)
    (hrows : ∀ r ∈ ds.rows, ∀ f ∈ fields, (List.lookup f r).isSome) :
    ∃ ds', count_tokens loadTok ds fields Option.none = .ok ds' ∧
      ds'.rows = ds.rows.map (fun r => mergeRow r (fields.map (fun f =>
        ("__byte_count__" ++ f,
          Value.int (byte_len (stringify (getValD r f))))))) := by
  have hmap := mapRows_ok
    (countRow (fun v => byte_len (stringify v)) "__byte_count__" fields)
    (fun r => fields.map fun f =>
      ("__byte_count__" ++ f, Value.int (byte_len (stringify (getValD r f)))))
    ds.rows (fun r hr => countRow_ok _ _ fields r (hrows r hr))
  refine ⟨⟨addFeatures ds.features
      (fields.map (fun f => ("__byte_count__" ++ f, "int64"))),
    ds.rows.map (fun r => mergeRow r (fields.map (fun f =>
      ("__byte_count__" ++ f,
        Value.int (byte_len (stringify (getValD r f)))))))⟩, ?_, rfl⟩
  rw [count_tokens_none_eq, hmap]
  rfl

/-- **C9 witness:** `"héllo"` is 5 characters but 6 UTF-8 bytes, and the
counter writes 6. -/
theorem c9_byte_count_is_utf8_length_witness :
    byte_len (stringify (Value.str "héllo")) = 6 ∧
    ("héllo".data.length = 5) ∧
    (∃ ds', count_tokens (fun _ _ => 0)
        ⟨[("body", "string")], [[("body", Value.str "héllo")]]⟩
        ["body"] Option.none = .ok ds' ∧
      ds'.rows = [[("body", Value.str "héllo")]].map (fun r =>
        mergeRow r (["body"].map (fun f =>
          ("__byte_count__" ++ f,
            Value.int (byte_len (stringify (getValD r f)))))))) :=
  ⟨by decide, by decide,
   c9_byte_count_is_utf8_length (fun _ _ => 0)
     ⟨[("body", "string")], [[("body", Value.str "héllo")]]⟩ ["body"]
     (by intro r hr f hf
         simp only [List.mem_singleton] at hr hf
         subst hr; subst hf
         rfl)⟩

/-- **C4, the claim as frozen is false:** `count_tokens` performs no
schema validation at all.  On a dataset whose schema and single row hold
only `"text"`, counting the missing field `"missing"` does not raise a
pre-row missing-field `ValueError`; it fails while mapping the first row
with a `KeyError`. -/
theorem c4_no_validation_counterexample :
    count_tokens (fun _ _ => 0)
        ⟨[("text", "string")], [[("text", Value.str "hi")]]⟩
        ["missing"] Option.none
      = .error (.keyError "missing") ∧
    count_tokens (fun _ _ => 0)
        ⟨[("text", "string")], [[("text", Value.str "hi")]]⟩
        ["missing"] Option.none
      ≠ .error (.missingField "missing") := by
  refine ⟨rfl, ?_⟩
  intro h
  rw [show count_tokens (fun _ _ => 0)
      ⟨[("text", "string")], [[("text", Value.str "hi")]]⟩
      ["missing"] Option.none = .error (.keyError "missing") from rfl] at h
  injection h with h2
  cases h2

/-- **C4 (amended).** The token/byte counter does not validate its field
list against the schema: invoked (with or without a tokenizer) on a
dataset with at least one row when some listed field is absent from the
first row, it fails during row mapping with a `KeyError` on (the first)
such field — not with the pre-row missing-field `ValueError` the
single-field operations raise — and the error propagates before any
column is merged, leaving the dataset unchanged.  (With zero rows it
does not raise at all.) -/
theorem c4_count_tokens_keyerror (loadTok : String → String → Nat)
    (ds : Dataset) (fields : List String) (r : Row) (rest : List Row)
    (tokName : Option String) (hrows : ds.rows = r :: rest)
    (habs : ∃ f ∈ fields, List.lookup f r = Option.none) :
    ∃ f ∈ fields, List.lookup f r = Option.none ∧
      count_tokens loadTok ds fields tokName = .error (.keyError f) := by
  cases tokName with
  | none =>
    rcases countRow_first_missing (fun v => byte_len (stringify v))
      "__byte_count__" fields r habs with ⟨f, hf, hfl, herr⟩
    refine ⟨f, hf, hfl, ?_⟩
    rw [count_tokens_none_eq, hrows, mapRows_error_head _ r rest _ herr]
    rfl
  | some t =>
    rcases countRow_first_missing (fun v => loadTok t (stringify v))
      "__token_count__" fields r habs with ⟨f, hf, hfl, herr⟩
    refine ⟨f, hf, hfl, ?_⟩
    rw [count_tokens_some_eq, hrows, mapRows_error_head _ r rest _ herr]
    rfl

/-- **C4 witness:** fields `["text", "missing"]` over a one-row dataset
holding only `"text"`: the failure is `KeyError "missing"`, during row
mapping. -/
theorem c4_count_tokens_keyerror_witness :
    ∃ f ∈ ["text", "missing"],
      List.lookup f [("text", Value.str "hi")] = Option.none ∧
      count_tokens (fun _ _ => 0)
          ⟨[("text", "string")], [[("text", Value.str "hi")]]⟩
          ["text", "missing"] Option.none
        = .error (.keyError f) :=
  c4_count_tokens_keyerror (fun _ _ => 0)
    ⟨[("text", "string")], [[("text", Value.str "hi")]]⟩
    ["text", "missing"] [("text", Value.str "hi")] [] Option.none rfl
    ⟨"missing", by simp, rfl⟩

/-- `calc_perplexity` with backend `"pythia"` and a validated string
field, unfolded: the dispatch ignores `language` and `dsName`. -/
theorem calc_perplexity_pythia_eq (tokenize : String → List String)
    (score : List String → List ℝ) (kenlmPpl : String → String → String → ℝ)
    (ds : Dataset) (field : String) (language dsName : Option String)
    (hf : List.lookup field ds.features = some "string") :
    calc_perplexity tokenize score kenlmPpl ds field "pythia" language dsName
      = (mapRows (pythiaRow tokenize score field) ds.rows).map (fun rows =>
          ⟨addFeatures ds.features [("__perplexity", "float")], rows⟩) := by
  unfold calc_perplexity
  rw [hf]
  rfl

/-- The pythia row function on a row whose field holds a string. -/
theorem pythiaRow_ok (tokenize : String → List String)
    (score : List String → List ℝ) (field : String) (r : Row) (s : String)
    (hv : List.lookup field r = some (Value.str s)) :
    pythiaRow tokenize score field r
      = .ok [("__perplexity", Value.real
          (Real.exp (-(score (tokenize s)).sum / (byte_len s : ℝ))))] := by
  simp only [pythiaRow, rowGet, hv]
  rfl

/-- **C1.** For every row scored by the neural (pythia) backend, the
written `__perplexity` value is
`exp(-(sum of the per-token log-probabilities of the tokenized field
text) / byte_len(original field text))`: the denominator is the byte
length of the original untokenized string, not the token count; the
`language`/`dsName` parameters are ignored by this backend. -/
theorem c1_pythia_perplexity_per_byte (tokenize : String → List String)
    (score : List String → List ℝ) (kenlmPpl : String → String → String → ℝ)
    (ds : Dataset) (field : String) (language dsName : Option String)
    (hf : List.lookup field ds.features = some "string")
    (hrows : ∀ r ∈ ds.rows, ∃ s, List.lookup field r = some (Value.str s)) :
    ∃ ds', calc_perplexity tokenize score kenlmPpl ds field "pythia"
        language dsName = .ok ds' ∧
      ds'.rows = ds.rows.map (fun r => mergeRow r
        [("__perplexity", Value.real (Real.exp
          (-(score (tokenize (getStrD r field))).sum
            / (byte_len (getStrD r field) : ℝ))))]) := by
  have hmap := mapRows_ok (pythiaRow tokenize score field)
    (fun r => [("__perplexity", Value.real (Real.exp
      (-(score (tokenize (getStrD r field))).sum
        / (byte_len (getStrD r field) : ℝ))))])
    ds.rows (fun r hr => by
      rcases hrows r hr with ⟨s, hv⟩
      have hg : getStrD r field = s := by simp [getStrD, hv]
      subst hg
      exact pythiaRow_ok tokenize score field r _ hv)
  refine ⟨⟨addFeatures ds.features [("__perplexity", "float")], _⟩, ?_, rfl⟩
  rw [calc_perplexity_pythia_eq tokenize score kenlmPpl ds field
    language dsName hf, hmap]
  rfl

/-- **C1 witness:** a one-row dataset; the hypotheses hold at the
concrete input and the theorem yields the per-byte formula. -/
theorem c1_pythia_perplexity_per_byte_witness :
    ∃ ds', calc_perplexity (fun _ => []) (fun _ => []) (fun _ _ _ => 0)
        ⟨[("text", "string")], [[("text", Value.str "hi")]]⟩ "text" "pythia"
        (some "en") (some "wikipedia") = .ok ds' ∧
      ds'.rows = [[("text", Value.str "hi")]].map (fun r => mergeRow r
        [("__perplexity", Value.real (Real.exp
          (-((fun (_ : List String) => ([] : List ℝ))
              ((fun (_ : String) => ([] : List String))
                (getStrD r "text"))).sum
            / (byte_len (getStrD r "text") : ℝ))))]) :=
  c1_pythia_perplexity_per_byte (fun _ => []) (fun _ => []) (fun _ _ _ => 0)
    ⟨[("text", "string")], [[("text", Value.str "hi")]]⟩ "text"
    (some "en") (some "wikipedia") rfl
    (by
      intro r hr
      simp only [List.mem_singleton] at hr
      subst hr
      exact ⟨"hi", rfl⟩)

/-- **C3.** Invoking the statistical (kenlm) backend with a language
code supplied but the domain/dataset identifier omitted is a
configuration error raised after field validation but before any model
is loaded and before any row is mapped: the operation returns the error
and the controller's dataset is never replaced, so no `__perplexity`
column is written. -/
theorem c3_kenlm_requires_language_and_domain (tokenize : String → List String)
    (score : List String → List ℝ) (kenlmPpl : String → String → String → ℝ)
    (ds : Dataset) (field lang : String)
    (hf : List.lookup field ds.features = some "string") :
    calc_perplexity tokenize score kenlmPpl ds field "kenlm" (some lang)
      Option.none = .error .configError := by
  unfold calc_perplexity
  rw [hf]
  rfl

/-- **C3 witness:** language `"en"` supplied, dataset omitted: the
configuration error, at a concrete dataset. -/
theorem c3_kenlm_requires_language_and_domain_witness :
    calc_perplexity (fun _ => []) (fun _ => []) (fun _ _ _ => 0)
      ⟨[("text", "string")], [[("text", Value.str "hi")]]⟩ "text" "kenlm"
      (some "en") Option.none = .error .configError :=
  c3_kenlm_requires_language_and_domain (fun _ => []) (fun _ => [])
    (fun _ _ _ => 0) ⟨[("text", "string")], [[("text", Value.str "hi")]]⟩
    "text" "en" rfl

/-- `detect_seo_spam` with a validated string field, unfolded. -/
theorem detect_seo_spam_eq (classify : String → String × ℝ) (ds : Dataset)
    (field : String) (hf : List.lookup field ds.features = some "string") :
    detect_seo_spam classify ds field
      = (mapRows (seoSpamRow classify field) ds.rows).map (fun rows =>
          ⟨addFeatures ds.features
            [("__seo_spam__" ++ field, "bool"),
             ("__seo_spam_prob__" ++ field, "float")], rows⟩) := by
  unfold detect_seo_spam
  rw [hf]
  rfl

/-- The spam row function on a row whose field holds a string, when the
label-prefix split succeeds. -/
theorem seoSpamRow_ok (classify : String → String × ℝ) (field : String)
    (r : Row) (s label : String)
    (hv : List.lookup field r = some (Value.str s))
    (hsplit : (pySplit (classify (pyLower (replaceNewlines s))).1
      "__label__").get? 1 = some label) :
    seoSpamRow classify field r = .ok
      (if label = "discard" then
        [("__seo_spam__" ++ field, Value.bool true),
         ("__seo_spam_prob__" ++ field,
           Value.real (classify (pyLower (replaceNewlines s))).2)]
       else
        [("__seo_spam__" ++ field, Value.bool false),
         ("__seo_spam_prob__" ++ field,
           Value.real (1 - (classify (pyLower (replaceNewlines s))).2))]) := by
  have hstep : seoSpamRow classify field r
      = (match (pySplit (classify (pyLower (replaceNewlines s))).1
          "__label__").get? 1 with
         | some label =>
           if label == "discard" then
             Except.ok [("__seo_spam__" ++ field, Value.bool true),
               ("__seo_spam_prob__" ++ field,
                 Value.real (classify (pyLower (replaceNewlines s))).2)]
           else
             Except.ok [("__seo_spam__" ++ field, Value.bool false),
               ("__seo_spam_prob__" ++ field,
                 Value.real (1 - (classify (pyLower (replaceNewlines s))).2))]
         | Option.none => Except.error Err.indexError) := by
    simp only [seoSpamRow, rowGet, hv]
    rfl
  rw [hstep, hsplit]
  by_cases hd : label = "discard"
  · simp [hd]
  · simp [hd]

/-- **C2.** For every row the spam classifier processes on field `f`
(after the per-row preprocessing lowercase + newline-to-space), if the
predicted label is `"discard"` then `__seo_spam__<f>` is true and
`__seo_spam_prob__<f>` is the returned probability; otherwise
`__seo_spam__<f>` is false and `__seo_spam_prob__<f>` is one minus the
returned probability. -/
theorem c2_seo_spam_calibration (classify : String → String × ℝ)
    (ds : Dataset) (field : String)
    (hf : List.lookup field ds.features = some "string")
    (hrows : ∀ r ∈ ds.rows, ∃ s, List.lookup field r = some (Value.str s))
    (hcl : ∀ s, ∃ label,
      (pySplit (classify s).1 "__label__").get? 1 = some label) :
    ∃ ds', detect_seo_spam classify ds field = .ok ds' ∧
      ∀ i r, ds.rows.get? i = some r →
        ∃ s label, List.lookup field r = some (Value.str s) ∧
          (pySplit (classify (pyLower (replaceNewlines s))).1
            "__label__").get? 1 = some label ∧
          ds'.rows.get? i = some (mergeRow r
            (if label = "discard" then
              [("__seo_spam__" ++ field, Value.bool true),
               ("__seo_spam_prob__" ++ field,
                 Value.real (classify (pyLower (replaceNewlines s))).2)]
             else
              [("__seo_spam__" ++ field, Value.bool false),
               ("__seo_spam_prob__" ++ field,
                 Value.real
                   (1 - (classify (pyLower (replaceNewlines s))).2))])) := by
  have hmap := mapRows_ok (seoSpamRow classify field)
    (fun r =>
      if (((pySplit (classify (pyLower (replaceNewlines (getStrD r field)))).1
            "__label__").get? 1).getD "") = "discard" then
        [("__seo_spam__" ++ field, Value.bool true),
         ("__seo_spam_prob__" ++ field,
           Value.real (classify (pyLower (replaceNewlines (getStrD r field)))).2)]
      else
        [("__seo_spam__" ++ field, Value.bool false),
         ("__seo_spam_prob__" ++ field,
           Value.real
             (1 - (classify (pyLower (replaceNewlines (getStrD r field)))).2))])
    ds.rows (fun r hr => by
      rcases hrows r hr with ⟨s, hv⟩
      have hg : getStrD r field = s := by simp [getStrD, hv]
      subst hg
      rcases hcl (pyLower (replaceNewlines (getStrD r field))) with ⟨label, hsplit⟩
      rw [seoSpamRow_ok classify field r _ label hv hsplit]
      simp only [hsplit, Option.getD_some])
  refine ⟨⟨addFeatures ds.features
      [("__seo_spam__" ++ field, "bool"),
       ("__seo_spam_prob__" ++ field, "float")],
    ds.rows.map (fun r => mergeRow r
      (if (((pySplit (classify (pyLower (replaceNewlines (getStrD r field)))).1
            "__label__").get? 1).getD "") = "discard" then
        [("__seo_spam__" ++ field, Value.bool true),
         ("__seo_spam_prob__" ++ field,
           Value.real (classify (pyLower (replaceNewlines (getStrD r field)))).2)]
      else
        [("__seo_spam__" ++ field, Value.bool false),
         ("__seo_spam_prob__" ++ field,
           Value.real
             (1 - (classify (pyLower (replaceNewlines (getStrD r field)))).2))]))⟩,
    ?_, ?_⟩
  · rw [detect_seo_spam_eq classify ds field hf, hmap]
    rfl
  · intro i r hi
    rcases hrows r (List.get?_mem hi) with ⟨s, hv⟩
    have hg : getStrD r field = s := by simp [getStrD, hv]
    subst hg
    rcases hcl (pyLower (replaceNewlines (getStrD r field))) with ⟨label, hsplit⟩
    refine ⟨_, label, hv, hsplit, ?_⟩
    rw [show (ds.rows.map (fun r => mergeRow r
      (if (((pySplit (classify (pyLower (replaceNewlines (getStrD r field)))).1
            "__label__").get? 1).getD "") = "discard" then
        [("__seo_spam__" ++ field, Value.bool true),
         ("__seo_spam_prob__" ++ field,
           Value.real (classify (pyLower (replaceNewlines (getStrD r field)))).2)]
      else
        [("__seo_spam__" ++ field, Value.bool false),
         ("__seo_spam_prob__" ++ field,
           Value.real
             (1 - (classify (pyLower (replaceNewlines (getStrD r field)))).2))]))).get? i
      = (ds.rows.get? i).map (fun r => mergeRow r
      (if (((pySplit (classify (pyLower (replaceNewlines (getStrD r field)))).1
            "__label__").get? 1).getD "") = "discard" then
        [("__seo_spam__" ++ field, Value.bool true),
         ("__seo_spam_prob__" ++ field,
           Value.real (classify (pyLower (replaceNewlines (getStrD r field)))).2)]
      else
        [("__seo_spam__" ++ field, Value.bool false),
         ("__seo_spam_prob__" ++ field,
           Value.real
             (1 - (classify (pyLower (replaceNewlines (getStrD r field)))).2))]))
      from List.get?_map _ _ _, hi]
    simp only [Option.map_some']
    rw [hsplit]
    simp

/-- **C2 witness:** a classifier answering `(label "keep", prob 9/10)`
yields `(false, 1 - 9/10)`, and `1 - 9/10 = 1/10` — the worked example
of the spec. -/
theorem c2_seo_spam_calibration_witness :
    (1 : ℝ) - 9 / 10 = 1 / 10 ∧
    (∃ ds', detect_seo_spam (fun _ => ("__label__keep", (9 : ℝ) / 10))
        ⟨[("text", "string")], [[("text", Value.str "Hello")]]⟩ "text"
        = .ok ds' ∧
      ∀ i r, ([[("text", Value.str "Hello")]] : List Row).get? i = some r →
        ∃ s label, List.lookup "text" r = some (Value.str s) ∧
          (pySplit ((fun (_ : String) => ("__label__keep", (9 : ℝ) / 10)) (pyLower (replaceNewlines s))).1
            "__label__").get? 1 = some label ∧
          ds'.rows.get? i = some (mergeRow r
            (if label = "discard" then
              [("__seo_spam__" ++ "text", Value.bool true),
               ("__seo_spam_prob__" ++ "text",
                 Value.real ((fun (_ : String) => ("__label__keep", (9 : ℝ) / 10)) (pyLower (replaceNewlines s))).2)]
             else
              [("__seo_spam__" ++ "text", Value.bool false),
               ("__seo_spam_prob__" ++ "text",
                 Value.real
                   (1 - ((fun (_ : String) => ("__label__keep", (9 : ℝ) / 10)) (pyLower (replaceNewlines s))).2))]))) :=
  ⟨by norm_num,
   c2_seo_spam_calibration (fun _ => ("__label__keep", (9 : ℝ) / 10))
     ⟨[("text", "string")], [[("text", Value.str "Hello")]]⟩ "text" rfl
     (by
       intro r hr
       simp only [List.mem_singleton] at hr
       subst hr
       exact ⟨"Hello", rfl⟩)
     (fun s => ⟨"keep", by
        show (pySplit "__label__keep" "__label__").get? 1 = some "keep"
        decide⟩)⟩

/-- `detect_language` with a field present in the schema, unfolded (any
dtype passes: only membership is checked). -/
theorem detect_language_eq (predict : String → List String × List ℝ)
    (ds : Dataset) (field : String)
    (hf : (List.lookup field ds.features).isSome = true) :
    detect_language predict ds field
      = (mapRows (detectLangRow predict field) ds.rows).map (fun rows =>
          ⟨addFeatures ds.features [("__language", "string")], rows⟩) := by
  unfold detect_language
  rcases Option.isSome_iff_exists.mp hf with ⟨v, hv⟩
  rw [hv]
  rfl

/-- The language row function on a row whose field is present, when the
model's top label carries the `"__label__"` prefix and the prefix split
recovers the code. -/
theorem detectLangRow_ok (predict : String → List String × List ℝ)
    (field : String) (r : Row) (v : Value) (code : String) (rest : List String)
    (hv : List.lookup field r = some v)
    (hp : (predict (langQuery v)).1 = ("__label__" ++ code) :: rest)
    (hsplit : (pySplit ("__label__" ++ code) "__label__").get? 1 = some code) :
    detectLangRow predict field r = .ok [("__language", Value.str code)] := by
  have hstep : detectLangRow predict field r
      = (match (predict (langQuery v)).1 with
         | [] => Except.error Err.indexError
         | top :: _ =>
           match (pySplit top "__label__").get? 1 with
           | some code => Except.ok [("__language", Value.str code)]
           | Option.none => Except.error Err.indexError) := by
    simp only [detectLangRow, rowGet, hv]
    rfl
  rw [hstep, hp]
  show (match (pySplit ("__label__" ++ code) "__label__").get? 1 with
        | some code => Except.ok [("__language", Value.str code)]
        | Option.none => Except.error Err.indexError)
      = Except.ok [("__language", Value.str code)]
  rw [hsplit]

/-- The text handed to the language model always equals the stringified
field value with newlines replaced: the string branch replaces them
explicitly, and the printed form of a non-string value contains no raw
newline, so the skipped replacement is a no-op there. -/
theorem langQuery_eq_replace (v : Value) :
    langQuery v = replaceNewlines (stringify v) := by
  cases v with
  | str s => rfl
  | int n => exact (@replaceNewlines_stringify (Value.int n) (by intro s h; cases h)).symm
  | bool b => exact (@replaceNewlines_stringify (Value.bool b) (by intro s h; cases h)).symm
  | none => exact (@replaceNewlines_stringify Value.none (by intro s h; cases h)).symm
  | list vs => exact (@replaceNewlines_stringify (Value.list vs) (by intro s h; cases h)).symm
  | real x => exact (@replaceNewlines_stringify (Value.real x) (by intro s h; cases h)).symm

/-- **C6.** For every row the Language Identifier processes, the model
is queried on the stringified field value with newlines replaced by
spaces — for string-valued and non-string-valued fields alike — and
`__language` is set to the top-ranked predicted code with the
confidence discarded. -/
theorem c6_language_query_and_top_code (predict : String → List String × List ℝ)
    (ds : Dataset) (field : String)
    (hf : (List.lookup field ds.features).isSome = true)
    (hrows : ∀ r ∈ ds.rows, (List.lookup field r).isSome = true)
    (hpred : ∀ s, ∃ code rest, (predict s).1 = ("__label__" ++ code) :: rest ∧
      (pySplit ("__label__" ++ code) "__label__").get? 1 = some code) :
    ∃ ds', detect_language predict ds field = .ok ds' ∧
      ∀ i r, ds.rows.get? i = some r →
        ∃ v code rest, List.lookup field r = some v ∧
          (predict (replaceNewlines (stringify v))).1
            = ("__label__" ++ code) :: rest ∧
          ds'.rows.get? i = some (mergeRow r [("__language", Value.str code)]) := by
  have hmap := mapRows_ok (detectLangRow predict field)
    (fun r => [("__language", Value.str
      (((pySplit (((predict (langQuery (getValD r field))).1).headD "")
          "__label__").get? 1).getD ""))])
    ds.rows (fun r hr => by
      rcases Option.isSome_iff_exists.mp (hrows r hr) with ⟨v, hv⟩
      rcases hpred (langQuery v) with ⟨code, rest, hp, hsplit⟩
      have hg : getValD r field = v := by simp [getValD, hv]
      rw [detectLangRow_ok predict field r v code rest hv hp hsplit]
      simp only [hg, hp, List.headD_cons, hsplit, Option.getD_some])
  refine ⟨⟨addFeatures ds.features [("__language", "string")],
    ds.rows.map (fun r => mergeRow r [("__language", Value.str
      (((pySplit (((predict (langQuery (getValD r field))).1).headD "")
          "__label__").get? 1).getD ""))])⟩, ?_, ?_⟩
  · rw [detect_language_eq predict ds field hf, hmap]
    rfl
  · intro i r hi
    rcases Option.isSome_iff_exists.mp (hrows r (List.get?_mem hi)) with ⟨v, hv⟩
    rcases hpred (langQuery v) with ⟨code, rest, hp, hsplit⟩
    have hg : getValD r field = v := by simp [getValD, hv]
    refine ⟨v, code, rest, hv, ?_, ?_⟩
    · rw [← langQuery_eq_replace v]
      exact hp
    · rw [show (ds.rows.map (fun r => mergeRow r [("__language", Value.str
        (((pySplit (((predict (langQuery (getValD r field))).1).headD "")
            "__label__").get? 1).getD ""))])).get? i
        = (ds.rows.get? i).map (fun r => mergeRow r [("__language", Value.str
        (((pySplit (((predict (langQuery (getValD r field))).1).headD "")
            "__label__").get? 1).getD ""))])
        from List.get?_map _ _ _, hi]
      simp only [Option.map_some']
      simp only [hg, hp, List.headD_cons, hsplit, Option.getD_some]

/-- **C6 witness:** a non-string field (an integer), where the source's
else-branch skips the explicit newline replacement: the queried text is
still the replaced stringified value, and `__language` gets the code of
the top label. -/
theorem c6_language_query_and_top_code_witness :
    ∃ ds', detect_language (fun _ => (["__label__en"], [(1 : ℝ)]))
        ⟨[("num", "int64")], [[("num", Value.int 5)]]⟩ "num" = .ok ds' ∧
      ∀ i r, ([[("num", Value.int 5)]] : List Row).get? i = some r →
        ∃ v code rest, List.lookup "num" r = some v ∧
          ((fun (_ : String) => (["__label__en"], [(1 : ℝ)]))
            (replaceNewlines (stringify v))).1
            = ("__label__" ++ code) :: rest ∧
          ds'.rows.get? i = some (mergeRow r [("__language", Value.str code)]) :=
  c6_language_query_and_top_code (fun _ => (["__label__en"], [(1 : ℝ)]))
    ⟨[("num", "int64")], [[("num", Value.int 5)]]⟩ "num" rfl
    (by
      intro r hr
      simp only [List.mem_singleton] at hr
      subst hr
      rfl)
    (fun s => ⟨"en", [], by
      show (["__label__en"] : List String) = ["__label__" ++ "en"]
      decide, by
      show (pySplit ("__label__" ++ "en") "__label__").get? 1 = some "en"
      decide⟩)

end Galactic
